import Mathlib

/-!
# Verification of the cost-based hybrid planner (cbo_proxy.py and friends)

Shallow embedding of the decision function `get_cbo_decision`, the two plan
executors `execute_plan_a` / `execute_plan_b`, the calibration core of
`calibrate_cost.py`, and the re-ranking pass, together with proofs of the
spec's testable properties.

The store (PostgreSQL + pgvector) is modelled as a table of rows plus a
connectivity flag; the SQL queries issued by the executors are embedded as
their relational semantics (filter / sort by distance / limit).  The vector
distance `embedding <-> v_query` for the fixed query vector of a call is
abstracted as a score function on rows.  Python exceptions that the source
catches are modelled by the value the handler returns.
-/

namespace DB

/-- `C_VEC_CPU_COST = 0.01` in cbo_proxy.py: assumed cost of one vector
computation, in PG cost units. -/
def C_VEC_CPU_COST : ℚ := 1 / 100

/-- `COST_B_FIXED = 600.0` in cbo_proxy.py: the fixed cost of plan B. -/
def COST_B_FIXED : ℚ := 600

/-- `K_CANDIDATES = 1000` in cbo_proxy.py: candidate window of plan B. -/
def K_CANDIDATES : ℕ := 1000

/-- The two plan tags returned by `get_cbo_decision`. -/
inductive Plan where
  | PLAN_A : Plan
  | PLAN_B : Plan
deriving DecidableEq

/-- The numbers `get_cbo_decision` reads out of `EXPLAIN (FORMAT JSON)`:
`"Plan Rows"` and `"Total Cost"`. -/
structure CostEstimate where
  planRows : ℕ
  totalCost : ℚ
deriving DecidableEq

/-- The trivial-filter test of cbo_proxy.py line 60:
`sql_filter_string is None or sql_filter_string == "" or sql_filter_string == "1 = 1"`.
`none` stands for Python `None`. -/
def isTrivialFilter : Option String → Bool
  | none => true
  | some s => s == "" || s == "1 = 1"

/-- `get_cbo_decision` of cbo_proxy.py.  The `explainResult` argument is the
outcome of the `EXPLAIN` round trip: `none` when any exception is raised while
obtaining it (connection failure, malformed predicate, ...), which the source
catches and maps to `PLAN_B`; `some e` when the estimate is obtained. -/
def get_cbo_decision (sqlFilterString : Option String)
    (explainResult : Option CostEstimate) : Plan :=
  if isTrivialFilter sqlFilterString then Plan.PLAN_B
  else
    match explainResult with
    | none => Plan.PLAN_B
    | some e =>
      let score_a : ℚ := e.totalCost + (e.planRows : ℚ) * C_VEC_CPU_COST
      let score_b : ℚ := COST_B_FIXED
      if score_a < score_b then Plan.PLAN_A else Plan.PLAN_B

/-- A row of the `products` table, with the columns the executors project. -/
structure ProductRecord where
  uniq_id : String
  brand : String
  sales_price : ℚ
  product_name : String
deriving DecidableEq

/-- The boolean comparison `similarity_score ASC` used by `ORDER BY`:
`score r` stands for `r.embedding <-> v_query`. -/
def scoreLE (score : ProductRecord → ℚ) (a b : ProductRecord) : Bool :=
  decide (score a ≤ score b)

/-- The backing store: a connectivity flag and the `products` table. -/
structure Store where
  connected : Bool
  table : List ProductRecord

/-- The module-level state the executors actually read: the global name
`sql_filter_string` (`none` = unbound, raising `NameError` at the query-format
site) and the store. -/
structure ModuleEnv where
  sql_filter_string : Option (ProductRecord → Bool)
  store : Store

/-- Semantics of the plan-A SQL (cbo_proxy.py lines 141-146):
`SELECT ... WHERE {filter} ORDER BY similarity_score ASC LIMIT 10`. -/
def planAQuery (table : List ProductRecord) (p : ProductRecord → Bool)
    (score : ProductRecord → ℚ) : List ProductRecord :=
  ((table.filter p).mergeSort (scoreLE score)).take 10

/-- `execute_plan_a` of cbo_proxy.py.  The `sql_filter` parameter is accepted
but the query is formatted from the module-level `sql_filter_string`
(line 147).  A connection failure, or `NameError` when the global is unbound,
is caught by the bare `except` and yields `[]`. -/
def execute_plan_a (sql_filter : ProductRecord → Bool)
    (score : ProductRecord → ℚ) (env : ModuleEnv) : List ProductRecord :=
  if env.store.connected then
    match env.sql_filter_string with
    | none => []
    | some p => planAQuery env.store.table p score
  else []

/-- The top-K candidate window of plan B: the `VectorSearch` CTE
(`ORDER BY similarity_score ASC LIMIT k`). -/
def vectorWindow (table : List ProductRecord) (score : ProductRecord → ℚ)
    (k : ℕ) : List ProductRecord :=
  (table.mergeSort (scoreLE score)).take k

/-- Semantics of the plan-B SQL (cbo_proxy.py lines 181-190): window of size
`k` first, then `WHERE {filter}`, then `LIMIT 10`. -/
def planBQuery (table : List ProductRecord) (p : ProductRecord → Bool)
    (score : ProductRecord → ℚ) (k : ℕ) : List ProductRecord :=
  ((vectorWindow table score k).filter p).take 10

/-- `execute_plan_b` of cbo_proxy.py.  As in plan A, the query is formatted
from the module-level `sql_filter_string` (line 193), not from the
`sql_filter` parameter, and every exception is caught and yields `[]`. -/
def execute_plan_b (sql_filter : ProductRecord → Bool)
    (score : ProductRecord → ℚ) (env : ModuleEnv)
    (k : ℕ := K_CANDIDATES) : List ProductRecord :=
  if env.store.connected then
    match env.sql_filter_string with
    | none => []
    | some p => planBQuery env.store.table p score k
  else []

/-- The spec's execution-error taxonomy (§7): connectivity/protocol failure
during plan execution. -/
inductive ExecutionError where
  | connectivity : ExecutionError
deriving DecidableEq

/-- The filter-first executor as the spec words it (§4.3 / §7): a store
round-trip failure during execution is surfaced as an `ExecutionError`
instead of being caught.  Used to compare against `execute_plan_a`. -/
def execute_plan_a_spec (p : ProductRecord → Bool)
    (score : ProductRecord → ℚ) (env : ModuleEnv) :
    Except ExecutionError (List ProductRecord) :=
  if env.store.connected then Except.ok (planAQuery env.store.table p score)
  else Except.error ExecutionError.connectivity

/-! ### Ordering helpers for the executors -/

theorem scoreLE_trans (score : ProductRecord → ℚ) :
    ∀ a b c, scoreLE score a b = true → scoreLE score b c = true →
      scoreLE score a c = true := by
  intro a b c hab hbc
  simp only [scoreLE, decide_eq_true_eq] at *
  exact le_trans hab hbc

theorem scoreLE_total (score : ProductRecord → ℚ) :
    ∀ a b, (scoreLE score a b || scoreLE score b a) = true := by
  intro a b
  simp only [scoreLE, Bool.or_eq_true, decide_eq_true_eq]
  exact le_total _ _

theorem sorted_score_mergeSort (score : ProductRecord → ℚ)
    (l : List ProductRecord) :
    List.Sorted (fun a b => score a ≤ score b)
      (l.mergeSort (scoreLE score)) := by
  have h := List.sorted_mergeSort (scoreLE_trans score) (scoreLE_total score) l
  exact h.imp (by intro a b hab; simpa [scoreLE] using hab)

theorem sorted_score_sublist {score : ProductRecord → ℚ}
    {l lsub : List ProductRecord} (hs : lsub.Sublist l)
    (h : List.Sorted (fun a b => score a ≤ score b) l) :
    List.Sorted (fun a b => score a ≤ score b) lsub :=
  List.Pairwise.sublist hs h

theorem planAQuery_props (table : List ProductRecord)
    (p : ProductRecord → Bool) (score : ProductRecord → ℚ) :
    (planAQuery table p score).length ≤ 10 ∧
    (∀ r ∈ planAQuery table p score, p r = true) ∧
    List.Sorted (fun a b => score a ≤ score b) (planAQuery table p score) := by
  refine ⟨List.length_take_le _ _, ?_, ?_⟩
  · intro r hr
    have h1 : r ∈ (table.filter p).mergeSort (scoreLE score) :=
      List.mem_of_mem_take hr
    have h2 : r ∈ table.filter p := List.mem_mergeSort.mp h1
    exact (List.mem_filter.mp h2).2
  · exact sorted_score_sublist (List.take_sublist _ _)
      (sorted_score_mergeSort score _)

theorem planBQuery_props (table : List ProductRecord)
    (p : ProductRecord → Bool) (score : ProductRecord → ℚ) (k : ℕ) :
    (planBQuery table p score k).length ≤ 10 ∧
    (∀ r ∈ planBQuery table p score k,
        p r = true ∧ r ∈ vectorWindow table score k) ∧
    List.Sorted (fun a b => score a ≤ score b) (planBQuery table p score k) ∧
    (((vectorWindow table score k).filter p).length < 10 →
      (planBQuery table p score k).length =
        ((vectorWindow table score k).filter p).length) := by
  refine ⟨List.length_take_le _ _, ?_, ?_, ?_⟩
  · intro r hr
    have h1 : r ∈ (vectorWindow table score k).filter p :=
      List.mem_of_mem_take hr
    have h2 := List.mem_filter.mp h1
    exact ⟨h2.2, h2.1⟩
  · have hwin : List.Sorted (fun a b => score a ≤ score b)
        (vectorWindow table score k) :=
      sorted_score_sublist (List.take_sublist _ _)
        (sorted_score_mergeSort score _)
    exact sorted_score_sublist (List.take_sublist _ _) (hwin.filter p)
  · intro hlt
    simp [planBQuery, List.length_take, Nat.min_eq_right (le_of_lt hlt)]

/-! ### Claims about the planner -/

/-- C1: for a non-trivial filter whose cost estimate is obtained, the planner
returns plan A (filter-first) iff
`totalCost + planRows * C_VEC_CPU_COST < COST_B_FIXED`, returns plan B
(vector-first) otherwise, and in particular an exact tie yields plan B. -/
theorem cbo_decision_cost_comparison (f : Option String) (e : CostEstimate)
    (h : isTrivialFilter f = false) :
    (get_cbo_decision f (some e) = Plan.PLAN_A ↔
      e.totalCost + (e.planRows : ℚ) * C_VEC_CPU_COST < COST_B_FIXED) ∧
    (¬ e.totalCost + (e.planRows : ℚ) * C_VEC_CPU_COST < COST_B_FIXED →
      get_cbo_decision f (some e) = Plan.PLAN_B) ∧
    (e.totalCost + (e.planRows : ℚ) * C_VEC_CPU_COST = COST_B_FIXED →
      get_cbo_decision f (some e) = Plan.PLAN_B) := by
  simp only [get_cbo_decision, h, Bool.false_eq_true, if_false]
  refine ⟨?_, ?_, ?_⟩
  · constructor
    · intro hd
      by_contra hlt
      simp [if_neg hlt] at hd
    · intro hlt
      simp [if_pos hlt]
  · intro hlt
    simp [if_neg hlt]
  · intro heq
    have hlt : ¬ e.totalCost + (e.planRows : ℚ) * C_VEC_CPU_COST <
        COST_B_FIXED := by rw [heq]; exact lt_irrefl _
    simp [if_neg hlt]

/-- Witness for C1 at the spec's end-to-end scenario shape: estimate
`{rows 50, cost 5}` gives score 5.5 < 600, hence plan A. -/
theorem cbo_decision_cost_comparison_witness :
    get_cbo_decision (some "brand = 'Max'") (some ⟨50, 5⟩) = Plan.PLAN_A :=
  (cbo_decision_cost_comparison (some "brand = 'Max'") ⟨50, 5⟩
    (by decide)).1.mpr (by norm_num [C_VEC_CPU_COST, COST_B_FIXED])

/-- C2: an empty or tautological filter makes the planner return plan B
whatever the outcome of the estimate round trip would have been — the
estimate is irrelevant (the source returns before requesting it). -/
theorem trivial_filter_always_plan_b (f : Option String)
    (est : Option CostEstimate) (h : isTrivialFilter f = true) :
    get_cbo_decision f est = Plan.PLAN_B := by
  simp [get_cbo_decision, h]

/-- Witness for C2: the tautological filter `1 = 1` with an estimate that
would otherwise have chosen plan A still yields plan B. -/
theorem trivial_filter_always_plan_b_witness :
    get_cbo_decision (some "1 = 1") (some ⟨0, 0⟩) = Plan.PLAN_B :=
  trivial_filter_always_plan_b (some "1 = 1") (some ⟨0, 0⟩) (by decide)

/-- C3: when obtaining the cost estimate fails, the planner returns plan B
for every filter; `get_cbo_decision` is a total function into `Plan`, so no
failure escapes to the caller. -/
theorem estimate_failure_plan_b (f : Option String) :
    get_cbo_decision f none = Plan.PLAN_B := by
  unfold get_cbo_decision
  split
  · rfl
  · rfl

/-! ### Claims about the executors -/

/-- C4: a successful run of the filter-first executor (global filter bound to
`p`, store connected) returns at most 10 records (the requested limit), every
one satisfying the effective predicate, in non-decreasing order of similarity
score. -/
theorem execute_plan_a_correct (sql_filter p : ProductRecord → Bool)
    (score : ProductRecord → ℚ) (env : ModuleEnv)
    (hglob : env.sql_filter_string = some p)
    (hconn : env.store.connected = true) :
    (execute_plan_a sql_filter score env).length ≤ 10 ∧
    (∀ r ∈ execute_plan_a sql_filter score env, p r = true) ∧
    List.Sorted (fun a b => score a ≤ score b)
      (execute_plan_a sql_filter score env) := by
  have hdef : execute_plan_a sql_filter score env =
      planAQuery env.store.table p score := by
    simp [execute_plan_a, hconn, hglob]
  rw [hdef]
  exact planAQuery_props env.store.table p score

/-- Witness for C4 at a concrete one-row store. -/
theorem execute_plan_a_correct_witness :
    (execute_plan_a (fun _ => true) (fun _ => 0)
        ⟨some fun _ => true, ⟨true, [⟨"id1", "b", 1, "n"⟩]⟩⟩).length ≤ 10 ∧
    (∀ r ∈ execute_plan_a (fun _ => true) (fun _ => 0)
        ⟨some fun _ => true, ⟨true, [⟨"id1", "b", 1, "n"⟩]⟩⟩,
      (fun (_ : ProductRecord) => true) r = true) ∧
    List.Sorted (fun a b => (fun (_ : ProductRecord) => (0 : ℚ)) a ≤
        (fun (_ : ProductRecord) => (0 : ℚ)) b)
      (execute_plan_a (fun _ => true) (fun _ => 0)
        ⟨some fun _ => true, ⟨true, [⟨"id1", "b", 1, "n"⟩]⟩⟩) :=
  execute_plan_a_correct (fun _ => true) (fun _ => true) (fun _ => 0)
    ⟨some fun _ => true, ⟨true, [⟨"id1", "b", 1, "n"⟩]⟩⟩ rfl rfl

/-- C5: a successful run of the vector-first executor applies the filter only
inside the top-`K_CANDIDATES` similarity window: it returns at most 10
records (and 10 ≤ K_CANDIDATES), each satisfying the effective predicate and
drawn from the window, in non-decreasing score order; when fewer than 10
records of the window pass the filter, exactly that many are returned. -/
theorem execute_plan_b_correct (sql_filter p : ProductRecord → Bool)
    (score : ProductRecord → ℚ) (env : ModuleEnv)
    (hglob : env.sql_filter_string = some p)
    (hconn : env.store.connected = true) :
    (execute_plan_b sql_filter score env).length ≤ 10 ∧
    10 ≤ K_CANDIDATES ∧
    (∀ r ∈ execute_plan_b sql_filter score env,
        p r = true ∧ r ∈ vectorWindow env.store.table score K_CANDIDATES) ∧
    List.Sorted (fun a b => score a ≤ score b)
      (execute_plan_b sql_filter score env) ∧
    (((vectorWindow env.store.table score K_CANDIDATES).filter p).length < 10 →
      (execute_plan_b sql_filter score env).length =
        ((vectorWindow env.store.table score K_CANDIDATES).filter p).length) := by
  have hdef : execute_plan_b sql_filter score env =
      planBQuery env.store.table p score K_CANDIDATES := by
    simp [execute_plan_b, hconn, hglob]
  rw [hdef]
  have h := planBQuery_props env.store.table p score K_CANDIDATES
  exact ⟨h.1, by norm_num [K_CANDIDATES], h.2.1, h.2.2.1, h.2.2.2⟩

/-- Witness for C5 at a concrete one-row store. -/
theorem execute_plan_b_correct_witness :
    (execute_plan_b (fun _ => true) (fun _ => 0)
        ⟨some fun _ => true, ⟨true, [⟨"id1", "b", 1, "n"⟩]⟩⟩).length ≤ 10 ∧
    10 ≤ K_CANDIDATES ∧
    (∀ r ∈ execute_plan_b (fun _ => true) (fun _ => 0)
        ⟨some fun _ => true, ⟨true, [⟨"id1", "b", 1, "n"⟩]⟩⟩,
      (fun (_ : ProductRecord) => true) r = true ∧
        r ∈ vectorWindow [⟨"id1", "b", 1, "n"⟩] (fun _ => 0) K_CANDIDATES) ∧
    List.Sorted (fun a b => (fun (_ : ProductRecord) => (0 : ℚ)) a ≤
        (fun (_ : ProductRecord) => (0 : ℚ)) b)
      (execute_plan_b (fun _ => true) (fun _ => 0)
        ⟨some fun _ => true, ⟨true, [⟨"id1", "b", 1, "n"⟩]⟩⟩) ∧
    (((vectorWindow [⟨"id1", "b", 1, "n"⟩] (fun _ => 0)
          K_CANDIDATES).filter (fun _ => true)).length < 10 →
      (execute_plan_b (fun _ => true) (fun _ => 0)
          ⟨some fun _ => true, ⟨true, [⟨"id1", "b", 1, "n"⟩]⟩⟩).length =
        ((vectorWindow [⟨"id1", "b", 1, "n"⟩] (fun _ => 0)
            K_CANDIDATES).filter (fun _ => true)).length) :=
  execute_plan_b_correct (fun _ => true) (fun _ => true) (fun _ => 0)
    ⟨some fun _ => true, ⟨true, [⟨"id1", "b", 1, "n"⟩]⟩⟩ rfl rfl

/-- Counterexample for C6: with the global filter bound and a disconnected
store holding a matching row, `execute_plan_a` and `execute_plan_b` do not
surface any error: they return the plain empty list, the very value a
successful empty query returns, while the spec-worded executor surfaces
`ExecutionError.connectivity` there. -/
theorem exec_error_swallowed_cex :
    execute_plan_a (fun _ => true) (fun _ => 0)
      ⟨some fun _ => true, ⟨false, [⟨"id1", "b", 1, "n"⟩]⟩⟩ = [] ∧
    execute_plan_b (fun _ => true) (fun _ => 0)
      ⟨some fun _ => true, ⟨false, [⟨"id1", "b", 1, "n"⟩]⟩⟩ = [] ∧
    execute_plan_a (fun _ => true) (fun _ => 0)
      ⟨some fun _ => true, ⟨true, []⟩⟩ = [] ∧
    execute_plan_a_spec (fun _ => true) (fun _ => 0)
      ⟨some fun _ => true, ⟨false, [⟨"id1", "b", 1, "n"⟩]⟩⟩ =
      Except.error ExecutionError.connectivity := by
  refine ⟨rfl, rfl, ?_, rfl⟩
  simp [execute_plan_a, planAQuery]

/-- C6 as amended: a successful query with no rows returns the empty
sequence, and a connectivity failure during execution is caught and also
returns the empty sequence — execution-time errors are swallowed by both
executors, never surfaced. -/
theorem exec_errors_swallowed (sql_filter p : ProductRecord → Bool)
    (score : ProductRecord → ℚ) (env : ModuleEnv) (k : ℕ)
    (hglob : env.sql_filter_string = some p) :
    (env.store.connected = true → env.store.table = [] →
        execute_plan_a sql_filter score env = [] ∧
        execute_plan_b sql_filter score env k = []) ∧
    (env.store.connected = false →
        execute_plan_a sql_filter score env = [] ∧
        execute_plan_b sql_filter score env k = []) := by
  constructor
  · intro hconn htab
    constructor
    · simp [execute_plan_a, planAQuery, hconn, hglob, htab]
    · simp [execute_plan_b, planBQuery, vectorWindow, hconn, hglob, htab]
  · intro hconn
    constructor
    · simp [execute_plan_a, hconn]
    · simp [execute_plan_b, hconn]

/-- Witness for the amended C6: a disconnected store with a matching row
yields [] from both executors. -/
theorem exec_errors_swallowed_witness :
    execute_plan_a (fun _ => true) (fun _ => 0)
      ⟨some fun _ => true, ⟨false, [⟨"id2", "b", 1, "n"⟩]⟩⟩ = [] ∧
    execute_plan_b (fun _ => true) (fun _ => 0)
      ⟨some fun _ => true, ⟨false, [⟨"id2", "b", 1, "n"⟩]⟩⟩ 1000 = [] :=
  (exec_errors_swallowed (fun _ => true) (fun _ => true) (fun _ => 0)
    ⟨some fun _ => true, ⟨false, [⟨"id2", "b", 1, "n"⟩]⟩⟩ 1000 rfl).2 rfl

/-- C10: both executors ignore their `sql_filter` argument — two calls
differing only in that argument agree on every module state — and when the
module-level `sql_filter_string` is unbound, both take the error branch and
return `[]` regardless of the argument. -/
theorem executors_ignore_sql_filter_arg :
    (∀ (f₁ f₂ : ProductRecord → Bool) (score : ProductRecord → ℚ)
        (env : ModuleEnv) (k : ℕ),
      execute_plan_a f₁ score env = execute_plan_a f₂ score env ∧
      execute_plan_b f₁ score env k = execute_plan_b f₂ score env k) ∧
    (∀ (f : ProductRecord → Bool) (score : ProductRecord → ℚ)
        (env : ModuleEnv) (k : ℕ), env.sql_filter_string = none →
      execute_plan_a f score env = [] ∧
      execute_plan_b f score env k = []) := by
  constructor
  · intro f₁ f₂ score env k
    exact ⟨rfl, rfl⟩
  · intro f score env k h
    constructor
    · simp [execute_plan_a, h]
    · simp [execute_plan_b, h]

/-- Witness for C10: with `sql_filter_string` unbound, a call with a
non-trivial argument on a connected, non-empty store still returns `[]`. -/
theorem executors_ignore_sql_filter_arg_witness :
    execute_plan_a (fun r => decide (r.sales_price ≤ 5)) (fun _ => 0)
      ⟨none, ⟨true, [⟨"id3", "b", 1, "n"⟩]⟩⟩ = [] ∧
    execute_plan_b (fun r => decide (r.sales_price ≤ 5)) (fun _ => 0)
      ⟨none, ⟨true, [⟨"id3", "b", 1, "n"⟩]⟩⟩ 1000 = [] :=
  executors_ignore_sql_filter_arg.2 (fun r => decide (r.sales_price ≤ 5))
    (fun _ => 0) ⟨none, ⟨true, [⟨"id3", "b", 1, "n"⟩]⟩⟩ 1000 rfl

/-! ### Calibration (calibrate_cost.py) -/

/-- Degree-1 least-squares fit, the semantics of
`np.polyfit(N_values, measured_times, 1)` (calibrate_cost.py line 88):
returns `(slope, intercept)`.  The degenerate case (all abscissas equal) is
mapped to `(0, 0)`. -/
def polyfit1 (pts : List (ℚ × ℚ)) : ℚ × ℚ :=
  let n : ℚ := pts.length
  let sx := (pts.map Prod.fst).sum
  let sy := (pts.map Prod.snd).sum
  let sxx := (pts.map fun q => q.1 * q.1).sum
  let sxy := (pts.map fun q => q.1 * q.2).sum
  let d := n * sxx - sx * sx
  if d = 0 then (0, 0)
  else
    let a := (n * sxy - sx * sy) / d
    (a, (sy - a * sx) / n)

/-- What `run_calibration` produces from the `(N, mean time)` pairs: the
fitted slope (printed as the recommended `C_VEC_CPU_COST`), the intercept,
and whether the warning of calibrate_cost.py lines 106-107 was printed.
The function is total: the source prints the warning and falls through. -/
structure CalibrationOutcome where
  slope : ℚ
  intercept : ℚ
  slopeWarning : Bool
deriving DecidableEq

/-- The regression-and-check tail of `run_calibration`
(calibrate_cost.py lines 88-107), applied to the measured pairs. -/
def run_calibration_core (pts : List (ℚ × ℚ)) : CalibrationOutcome :=
  let fit := polyfit1 pts
  { slope := fit.1, intercept := fit.2, slopeWarning := decide (fit.1 ≤ 0) }

/-- The spec's calibration failure (§4.1/§7): bad measurement data. -/
inductive CalibrationError where
  | nonPositiveSlope : CalibrationError
deriving DecidableEq

/-- `measurePerRowCost` as the spec words it (§4.1): fails with
`CalibrationError` if the fitted slope is non-positive, otherwise returns the
slope.  Used to compare against `run_calibration_core`. -/
def measurePerRowCost_spec (pts : List (ℚ × ℚ)) :
    Except CalibrationError ℚ :=
  let a := (polyfit1 pts).1
  if a ≤ 0 then Except.error CalibrationError.nonPositiveSlope
  else Except.ok a

/-! ### Regression algebra -/

theorem sum_map_linear (a b : ℚ) (xs : List ℚ) :
    (xs.map fun x => a * x + b).sum = a * xs.sum + b * xs.length := by
  induction xs with
  | nil => simp
  | cons x t ih =>
    simp only [List.map_cons, List.sum_cons, List.length_cons, ih]
    push_cast
    ring

theorem sum_map_xy (a b : ℚ) (xs : List ℚ) :
    (xs.map fun x => x * (a * x + b)).sum =
      a * (xs.map fun x => x * x).sum + b * xs.sum := by
  induction xs with
  | nil => simp
  | cons x t ih =>
    simp only [List.map_cons, List.sum_cons, ih]
    ring

theorem sum_sq_sub_nonneg (x : ℚ) (xs : List ℚ) :
    0 ≤ (xs.map fun y => (x - y) * (x - y)).sum := by
  induction xs with
  | nil => simp
  | cons z t ih =>
    simp only [List.map_cons, List.sum_cons]
    nlinarith [mul_self_nonneg (x - z)]

theorem sum_sq_sub_expand (x : ℚ) (xs : List ℚ) :
    (xs.map fun y => (x - y) * (x - y)).sum =
      (xs.length : ℚ) * (x * x) - 2 * x * xs.sum +
        (xs.map fun y => y * y).sum := by
  induction xs with
  | nil => simp
  | cons z t ih =>
    simp only [List.map_cons, List.sum_cons, List.length_cons, ih]
    push_cast
    ring

theorem regression_denom_nonneg (xs : List ℚ) :
    0 ≤ (xs.length : ℚ) * (xs.map fun y => y * y).sum - xs.sum * xs.sum := by
  induction xs with
  | nil => simp
  | cons x t ih =>
    have h1 := sum_sq_sub_nonneg x t
    rw [sum_sq_sub_expand x t] at h1
    simp only [List.map_cons, List.sum_cons, List.length_cons]
    push_cast
    nlinarith

theorem sum_sq_sub_pos {x y : ℚ} {xs : List ℚ} (hy : y ∈ xs) (hxy : x ≠ y) :
    0 < (xs.map fun z => (x - z) * (x - z)).sum := by
  induction xs with
  | nil => cases hy
  | cons z t ih =>
    simp only [List.map_cons, List.sum_cons]
    rcases List.mem_cons.mp hy with h | h
    · subst h
      have h1 : 0 < (x - y) * (x - y) :=
        mul_self_pos.mpr (sub_ne_zero.mpr hxy)
      have h2 := sum_sq_sub_nonneg x t
      linarith
    · have h1 := ih h
      have h2 : 0 ≤ (x - z) * (x - z) := mul_self_nonneg _
      linarith

theorem regression_denom_pos {xs : List ℚ} {u v : ℚ}
    (hu : u ∈ xs) (hv : v ∈ xs) (huv : u ≠ v) :
    0 < (xs.length : ℚ) * (xs.map fun y => y * y).sum - xs.sum * xs.sum := by
  cases xs with
  | nil => cases hu
  | cons x t =>
    by_cases hall : ∀ y ∈ t, y = x
    · exfalso
      have hux : u = x := by
        rcases List.mem_cons.mp hu with h | h
        · exact h
        · exact hall u h
      have hvx : v = x := by
        rcases List.mem_cons.mp hv with h | h
        · exact h
        · exact hall v h
      exact huv (hux.trans hvx.symm)
    · push_neg at hall
      obtain ⟨y, hyt, hyx⟩ := hall
      have h1 : 0 < (t.map fun z => (x - z) * (x - z)).sum :=
        sum_sq_sub_pos hyt (Ne.symm hyx)
      rw [sum_sq_sub_expand x t] at h1
      have h2 := regression_denom_nonneg t
      simp only [List.map_cons, List.sum_cons, List.length_cons]
      push_cast
      nlinarith

theorem polyfit1_slope_of_denom_ne (pts : List (ℚ × ℚ))
    (hd : (pts.length : ℚ) * (pts.map fun q => q.1 * q.1).sum -
        (pts.map Prod.fst).sum * (pts.map Prod.fst).sum ≠ 0) :
    (polyfit1 pts).1 =
      ((pts.length : ℚ) * (pts.map fun q => q.1 * q.2).sum -
        (pts.map Prod.fst).sum * (pts.map Prod.snd).sum) /
      ((pts.length : ℚ) * (pts.map fun q => q.1 * q.1).sum -
        (pts.map Prod.fst).sum * (pts.map Prod.fst).sum) := by
  simp only [polyfit1]
  split_ifs with h
  · exact absurd h hd
  · rfl

/-! ### Sums over exactly-linear data -/

theorem pts_fst (a b : ℚ) (xs : List ℚ) :
    (xs.map fun x => (x, a * x + b)).map Prod.fst = xs := by
  induction xs with
  | nil => rfl
  | cons x t ih => simp only [List.map_cons, ih]

theorem pts_snd_sum (a b : ℚ) (xs : List ℚ) :
    ((xs.map fun x => (x, a * x + b)).map Prod.snd).sum =
      a * xs.sum + b * xs.length := by
  induction xs with
  | nil => simp
  | cons x t ih =>
    simp only [List.map_cons, List.sum_cons, List.length_cons, ih]
    push_cast
    ring

theorem pts_xx (a b : ℚ) (xs : List ℚ) :
    ((xs.map fun x => (x, a * x + b)).map fun q => q.1 * q.1) =
      xs.map fun x => x * x := by
  induction xs with
  | nil => rfl
  | cons x t ih => simp only [List.map_cons, ih]

theorem pts_xy_sum (a b : ℚ) (xs : List ℚ) :
    ((xs.map fun x => (x, a * x + b)).map fun q => q.1 * q.2).sum =
      a * (xs.map fun x => x * x).sum + b * xs.sum := by
  induction xs with
  | nil => simp
  | cons x t ih =>
    simp only [List.map_cons, List.sum_cons, ih]
    ring

/-! ### Claims about calibration -/

/-- Counterexample for C8: on measurements with fitted slope `-1`,
`run_calibration_core` completes normally — it returns the slope with just
the warning flag set (the source only prints a warning) — whereas the
spec-worded `measurePerRowCost` fails with `CalibrationError`. -/
theorem calibration_no_failure_cex :
    run_calibration_core [((0 : ℚ), (1 : ℚ)), (1, 0)] =
      { slope := -1, intercept := 1, slopeWarning := true } ∧
    measurePerRowCost_spec [((0 : ℚ), (1 : ℚ)), (1, 0)] =
      Except.error CalibrationError.nonPositiveSlope := by
  have hfit : polyfit1 [((0 : ℚ), (1 : ℚ)), (1, 0)] = (-1, 1) := by
    norm_num [polyfit1]
  constructor
  · simp only [run_calibration_core, hfit, CalibrationOutcome.mk.injEq]
    norm_num
  · simp only [measurePerRowCost_spec, hfit]
    norm_num

/-- C8 as amended: whenever the fitted slope is non-positive, the calibration
does not fail; it prints the warning and still reports that slope as the
recommended per-row cost. -/
theorem calibration_warns_on_nonpositive_slope (pts : List (ℚ × ℚ))
    (h : (polyfit1 pts).1 ≤ 0) :
    (run_calibration_core pts).slopeWarning = true ∧
    (run_calibration_core pts).slope = (polyfit1 pts).1 := by
  constructor
  · simp [run_calibration_core, h]
  · simp [run_calibration_core]

/-- Witness for the amended C8 at the slope `-1` data set. -/
theorem calibration_warns_on_nonpositive_slope_witness :
    (run_calibration_core [((0 : ℚ), (1 : ℚ)), (1, 0)]).slopeWarning = true ∧
    (run_calibration_core [((0 : ℚ), (1 : ℚ)), (1, 0)]).slope =
      (polyfit1 [((0 : ℚ), (1 : ℚ)), (1, 0)]).1 :=
  calibration_warns_on_nonpositive_slope [((0 : ℚ), (1 : ℚ)), (1, 0)]
    (by norm_num [polyfit1])

/-- C9: on timing data generated exactly from `time = a * N + b`, with at
least two distinct abscissas, the fitted regression slope is exactly `a`,
and that slope is what the calibration reports as the per-row cost. -/
theorem calibration_recovers_slope (xs : List ℚ) (a b : ℚ)
    (h : ∃ u ∈ xs, ∃ v ∈ xs, u ≠ v) :
    (run_calibration_core (xs.map fun x => (x, a * x + b))).slope = a := by
  obtain ⟨u, hu, v, hv, huv⟩ := h
  have hlen : ((xs.map fun x => (x, a * x + b)).length : ℚ) =
      (xs.length : ℚ) := by simp
  have hdpos : 0 < (xs.length : ℚ) * (xs.map fun x => x * x).sum -
      xs.sum * xs.sum := regression_denom_pos hu hv huv
  have hne : ((xs.map fun x => (x, a * x + b)).length : ℚ) *
      ((xs.map fun x => (x, a * x + b)).map fun q => q.1 * q.1).sum -
      ((xs.map fun x => (x, a * x + b)).map Prod.fst).sum *
        ((xs.map fun x => (x, a * x + b)).map Prod.fst).sum ≠ 0 := by
    rw [hlen, pts_fst a b xs, pts_xx a b xs]
    exact ne_of_gt hdpos
  have hslope := polyfit1_slope_of_denom_ne _ hne
  rw [hlen, pts_fst a b xs, pts_xx a b xs, pts_xy_sum a b xs,
    pts_snd_sum a b xs] at hslope
  have hrun : (run_calibration_core (xs.map fun x => (x, a * x + b))).slope =
      (polyfit1 (xs.map fun x => (x, a * x + b))).1 := rfl
  rw [hrun, hslope]
  have hdne : (xs.length : ℚ) * (xs.map fun x => x * x).sum -
      xs.sum * xs.sum ≠ 0 := ne_of_gt hdpos
  field_simp
  ring

/-- Witness for C9: data on the line `time = 3 N + 5` over N ∈ {1, 2}. -/
theorem calibration_recovers_slope_witness :
    (run_calibration_core ([(1 : ℚ), 2].map fun x => (x, 3 * x + 5))).slope
      = 3 :=
  calibration_recovers_slope [(1 : ℚ), 2] 3 5
    ⟨1, by simp, 2, by simp, by norm_num⟩

/-! ### Re-ranking pass (spec §4.4) -/

/-- A record as seen by the re-ranker: its lexical text (tokenized into
words) and its similarity score. -/
structure RankedRecord where
  words : List String
  similarityScore : ℚ
deriving DecidableEq

/-- Modelled from the spec: keyword detection for the re-ranking pass.
`rerank_by_color` is invoked as `cbo_proxy.rerank_by_color(results_c,
USER_TEXT_INPUT)` in experiment_1_accuracy.py line 149, but its definition is
absent from the sources; spec §4.4 describes it.  Detection scans a fixed
keyword table in table order and returns the first category one of whose
keywords occurs among the words of the free-text input. -/
def detectCategory (keywordTable : List (String × List String))
    (textWords : List String) : Option (String × List String) :=
  keywordTable.find? fun cat => cat.2.any fun kw => textWords.contains kw

/-- Modelled from the spec: whether a record's text matches a keyword in the
target category (spec §4.4). -/
def matchesCategory (cat : String × List String) (r : RankedRecord) : Bool :=
  cat.2.any fun kw => r.words.contains kw

/-- First component of the spec §4.4 composite sort key:
`0` if the record matches the target category, else `1`. -/
def rerankGroup (cat : String × List String) (r : RankedRecord) : ℕ :=
  if matchesCategory cat r then 0 else 1

/-- Lexicographic comparison on the composite key
`(rerankGroup, similarityScore ascending)` of spec §4.4. -/
def rerankLE (cat : String × List String) (a b : RankedRecord) : Bool :=
  decide (rerankGroup cat a < rerankGroup cat b) ||
    (decide (rerankGroup cat a = rerankGroup cat b) &&
      decide (a.similarityScore ≤ b.similarityScore))

/-- Modelled from the spec: the re-ranking pass of §4.4 — detect at most one
target category from the free-text input; if none is detected return the
input sequence unchanged, otherwise stable-sort (mergeSort is stable) by the
composite key. -/
def rerank_by_color (keywordTable : List (String × List String))
    (results : List RankedRecord) (textWords : List String) :
    List RankedRecord :=
  match detectCategory keywordTable textWords with
  | none => results
  | some cat => results.mergeSort (rerankLE cat)

/-- C7: when no keyword of the table is detected in the modifier input, the
re-ranking pass returns the input sequence unchanged, order for order. -/
theorem rerank_no_keyword_unchanged
    (keywordTable : List (String × List String))
    (results : List RankedRecord) (textWords : List String)
    (h : detectCategory keywordTable textWords = none) :
    rerank_by_color keywordTable results textWords = results := by
  simp [rerank_by_color, h]

/-- Witness for C7: the input `"a different style"` contains no keyword of
the color table, so a two-record result set passes through unchanged. -/
theorem rerank_no_keyword_unchanged_witness :
    rerank_by_color [("color", ["black", "red"])]
      [⟨["black", "skirt"], 1⟩, ⟨["red", "dress"], 2⟩]
      ["a", "different", "style"] =
      [⟨["black", "skirt"], 1⟩, ⟨["red", "dress"], 2⟩] :=
  rerank_no_keyword_unchanged [("color", ["black", "red"])]
    [⟨["black", "skirt"], 1⟩, ⟨["red", "dress"], 2⟩]
    ["a", "different", "style"] (by decide)

end DB
